import Mathlib

/-!
Verification development for the GameBass tournament-management platform.

Shallow embedding of the access-control helpers (`app/services/dashboard_service.py`,
`app/utils/decorators.py`), team membership management
(`app/models/equipos_models.py`, `app/services/equipos_services.py`) and the
tournament persistence layer (`app/models/torneos_models.py`,
`app/services/torneos_services.py`), together with theorems settling the
specification claims about them.

Conventions of the embedding:
- Python integers are `Int`; Python `None`-able fields are `Option _`.
- Python exceptions are modelled with `Except PyError _`; a function that the
  source lets return `None` on a caught database error yields `Option _` inside
  the `Except`.
- `datetime` values are modelled as integers (totally ordered timestamps); the
  ISO-8601 parsing performed by the standard library is abstracted away.
- The ORM session is modelled by an explicit database state threaded through
  the service functions; `session.commit` enforces the table CHECK / NOT NULL /
  foreign-key constraints declared in the models, and a `commitOk` flag stands
  for the possibility of an unrelated database error at commit time.
-/

namespace GameBass

/-- Modelled from the spec: the module `app/utils/permissions.py` (class
`Permissions`) is not among the sources, only its callers are.  The tier
constants follow the spec ("descending thresholds") and the in-repo
docstrings of `jerarquias_models.py` ("0: PARTICIPANTE, 40: MOD_TACTICO,
60: MOD_ARENA, 80: MOD_SISTEMA") and `decorators.py` ("El ADMIN (100)"). -/
structure PermissionsTiers where
  PARTICIPANTE : Int := 0
  MOD_TACTICO : Int := 40
  MOD_ARENA : Int := 60
  MOD_SISTEMA : Int := 80
  ADMIN : Int := 100

/-- The concrete `Permissions` constants. -/
def Permissions : PermissionsTiers := {}

/-- The five discrete tiers, ascending. -/
def accessTiers : List Int :=
  [Permissions.PARTICIPANTE, Permissions.MOD_TACTICO, Permissions.MOD_ARENA,
   Permissions.MOD_SISTEMA, Permissions.ADMIN]

/-- A `Jerarquia` row: we only need `nivel_acceso` (constrained to [0,100] by
`check_nivel_acceso_valid_range` in `jerarquias_models.py`). -/
structure Jerarquia where
  nivel_acceso : Int
  deriving DecidableEq, Repr

/-- The view of a (possibly anonymous) `current_user` seen by the dashboard
service and the decorator: `flask_login`'s `is_authenticated` flag plus the
user's `jerarquia` relationship. -/
structure AuthUser where
  is_authenticated : Bool
  jerarquia : Jerarquia
  deriving DecidableEq, Repr

/-- `_calculate_access_level` from `app/services/dashboard_service.py`:
returns `PARTICIPANTE` for unauthenticated users, otherwise cascades from the
highest threshold downwards. -/
def calculate_access_level (user : AuthUser) : Int :=
  if !user.is_authenticated then Permissions.PARTICIPANTE
  else
    let level := user.jerarquia.nivel_acceso
    if level ≥ Permissions.ADMIN then Permissions.ADMIN
    else if level ≥ Permissions.MOD_SISTEMA then Permissions.MOD_SISTEMA
    else if level ≥ Permissions.MOD_ARENA then Permissions.MOD_ARENA
    else if level ≥ Permissions.MOD_TACTICO then Permissions.MOD_TACTICO
    else Permissions.PARTICIPANTE

/-- Outcome of a request to a route wrapped by `permission_required`. -/
inductive RouteOutcome where
  | redirectLogin
  | redirectIndex
  | handlerRuns
  deriving DecidableEq, Repr

/-- `permission_required` from `app/utils/decorators.py`: redirect to login if
unauthenticated; redirect to index if the user's raw level is neither `ADMIN`
nor a member of the allow-list; otherwise run the wrapped handler. -/
def permission_required (allowed_levels : List Int) (user : AuthUser) : RouteOutcome :=
  if !user.is_authenticated then .redirectLogin
  else
    let user_level := user.jerarquia.nivel_acceso
    if user_level ≠ Permissions.ADMIN ∧ user_level ∉ allowed_levels then .redirectIndex
    else .handlerRuns

/-- Python `str.rstrip("/")`: remove every trailing `'/'` character. -/
def rstripSlash (s : String) : String :=
  ⟨(s.toList.reverse.dropWhile (fun c => c = '/')).reverse⟩

/-- `_normalize_path` from `app/services/dashboard_service.py` (the string
branch; the non-string guard is unrepresentable in the typed embedding):
`path.rstrip("/") if len(path) > 1 else path`. -/
def normalize_path (path : String) : String :=
  if path.length > 1 then rstripSlash path else path

/-- Python exceptions surfaced by the embedded functions (`dbError` stands
for `sqlalchemy.exc.SQLAlchemyError`). -/
inductive PyError where
  | valueError (msg : String)
  | typeError (msg : String)
  | dbError (msg : String)
  deriving DecidableEq, Repr

/-- `EstadoEquipo` from `app/enums/tipos.py`. -/
inductive EstadoEquipo where
  | pendiente
  | activo
  | inactivo
  | eliminado
  deriving DecidableEq, Repr

/-- `EstadoEquipo[name]`: Python `Enum` lookup by member name (raises
`KeyError` on a miss, modelled as `none`). -/
def EstadoEquipo.fromName : String → Option EstadoEquipo
  | "pendiente" => some .pendiente
  | "activo" => some .activo
  | "inactivo" => some .inactivo
  | "eliminado" => some .eliminado
  | _ => none

/-- Python `str.strip()`: remove leading and trailing whitespace. -/
def pyStrip (s : String) : String :=
  ⟨((s.toList.dropWhile Char.isWhitespace).reverse.dropWhile Char.isWhitespace).reverse⟩

/-- A `Usuario` row: the membership logic only reads `id_usuario`. -/
structure Usuario where
  id_usuario : Int
  deriving DecidableEq, Repr

/-- An `Equipo` row (`app/models/equipos_models.py`) together with its loaded
`miembros` relationship.  `maximo_miembros` is `Option Int` because a freshly
constructed object that was given `maximo_miembros=None` carries `None` until
the column default (2) is applied at INSERT time. -/
structure Equipo where
  id_equipo : Int
  nombre_equipo : String
  lema_equipo : Option String := none
  maximo_miembros : Option Int := none
  color_equipo : Option String := none
  estado_equipo : EstadoEquipo := .pendiente
  id_comandante : Int
  miembros : List Usuario := []
  deriving DecidableEq, Repr

/-- `Equipo.miembros_count`: `len(self.miembros) if self.miembros else 0`. -/
def Equipo.miembros_count (e : Equipo) : Int :=
  e.miembros.length

/-- `Equipo.es_comandante` (the `int` branch; the type guard is
unrepresentable in the typed embedding). -/
def Equipo.es_comandante (e : Equipo) (usuario_id : Int) : Bool :=
  e.id_comandante == usuario_id

/-- `Equipo.es_miembro`: `any(u.id_usuario == usuario_id for u in self.miembros)`. -/
def Equipo.es_miembro (e : Equipo) (usuario_id : Int) : Bool :=
  e.miembros.any (fun u => u.id_usuario == usuario_id)

/-- `Equipo.agregar_miembro`.  Source order: the already-a-member check comes
first (returning `False`); then `self.miembros_count >= self.maximo_miembros`
raises `ValueError` — when `maximo_miembros` is still `None` that comparison
itself raises `TypeError` in Python 3; otherwise the user is appended and
`True` is returned.  The result pairs the returned boolean with the updated
team. -/
def Equipo.agregar_miembro (e : Equipo) (usuario : Usuario) :
    Except PyError (Bool × Equipo) :=
  if e.es_miembro usuario.id_usuario then .ok (false, e)
  else
    match e.maximo_miembros with
    | none => .error (.typeError "unsupported comparison of int and NoneType")
    | some maxm =>
      if e.miembros_count ≥ maxm then
        .error (.valueError "Equipo ya alcanzo su maximo de miembros")
      else .ok (true, { e with miembros := e.miembros ++ [usuario] })

/-- `Equipo.remover_miembro`: `False` if not a member, otherwise filters the
user out of `miembros` and returns `True`. -/
def Equipo.remover_miembro (e : Equipo) (usuario : Usuario) : Bool × Equipo :=
  if !e.es_miembro usuario.id_usuario then (false, e)
  else (true, { e with miembros := e.miembros.filter (fun u => u.id_usuario ≠ usuario.id_usuario) })

/-- The slice of the database state used by the equipos service layer. -/
structure EquiposDB where
  usuarios : List Usuario
  equipos : List Equipo
  next_id_equipo : Int := 1
  deriving DecidableEq, Repr

/-- `get_equipos_by_id` (service layer): `session.query(Equipo)...first()`. -/
def get_equipos_by_id (db : EquiposDB) (id_equipo : Int) : Option Equipo :=
  db.equipos.find? (fun e => e.id_equipo == id_equipo)

/-- `usuarios_services.get_usuarios_by_id`: first `Usuario` with the given id. -/
def get_usuarios_by_id (db : EquiposDB) (id_usuario : Int) : Option Usuario :=
  db.usuarios.find? (fun u => u.id_usuario == id_usuario)

/-- Replace the stored row for `e.id_equipo` with `e` (the ORM session keeps a
single identity per row, so mutating the loaded object mutates the store). -/
def EquiposDB.storeEquipo (db : EquiposDB) (e : Equipo) : EquiposDB :=
  { db with equipos := db.equipos.map (fun x => if x.id_equipo == e.id_equipo then e else x) }

/-- The CHECK / NOT NULL / foreign-key constraints of the `equipos` table
(`equipos_models.py`): commander FK, `length(nombre_equipo) >= 3`,
`color_equipo` NOT NULL of the shape `#RRGGBB`, `maximo_miembros` between 2
and 100, unique team name. -/
def equipoConstraintsOk (db : EquiposDB) (e : Equipo) : Bool :=
  (db.usuarios.any (fun u => u.id_usuario == e.id_comandante)) &&
  (e.nombre_equipo.length ≥ 3) &&
  (match e.color_equipo with
   | none => false
   | some c => c.length == 7 && c.toList.head? == some '#') &&
  (match e.maximo_miembros with
   | none => false
   | some m => 2 ≤ m && m ≤ 100) &&
  (db.equipos.all (fun x => x.nombre_equipo ≠ e.nombre_equipo))

/-- The row actually inserted for a new `Equipo`: the column default
`maximo_miembros = 2` is applied when the attribute is `None` and the fresh
autoincrement id is assigned. -/
def EquiposDB.resolveEquipo (db : EquiposDB) (e : Equipo) : Equipo :=
  { e with
    maximo_miembros := some (e.maximo_miembros.getD 2),
    id_equipo := db.next_id_equipo }

/-- `session.add` + `session.commit` for a new `Equipo`: the resolved row is
inserted if the table constraints hold; a violation surfaces as
`SQLAlchemyError` (modelled as `none`). -/
def EquiposDB.commitNewEquipo (db : EquiposDB) (e : Equipo) : Option (Equipo × EquiposDB) :=
  if equipoConstraintsOk db (db.resolveEquipo e) then
    some (db.resolveEquipo e,
      { db with equipos := db.equipos ++ [db.resolveEquipo e],
                next_id_equipo := db.next_id_equipo + 1 })
  else none

/-- The `Equipo(...)` object constructed by `create_equipo` before the
commander is enrolled: empty member list, stripped name, id still unassigned. -/
def nuevoEquipoObj (nombre_equipo : String) (lema_equipo : Option String)
    (maximo_miembros : Option Int) (color_equipo : Option String)
    (estado_enum : EstadoEquipo) (id_comandante : Int) : Equipo :=
  { id_equipo := 0
    nombre_equipo := pyStrip nombre_equipo
    lema_equipo := lema_equipo
    maximo_miembros := maximo_miembros
    color_equipo := color_equipo
    estado_equipo := estado_enum
    id_comandante := id_comandante
    miembros := [] }

/-- `create_equipo` from `app/services/equipos_services.py`.  Follows the
source: falsy-check on the required fields (empty strings, commander id 0),
blank-name check, enum lookup (`TypeError` on a miss), construction of the
team with an empty member list, auto-enrolment of the commander when the
commander id resolves to a user (errors from `agregar_miembro` propagate:
only `SQLAlchemyError` is caught), then commit.  A commit failure rolls back
and returns `None` (modelled `.ok none`). -/
def create_equipo (db : EquiposDB) (nombre_equipo : String) (estado_equipo : String)
    (id_comandante : Int) (lema_equipo : Option String := none)
    (maximo_miembros : Option Int := none) (color_equipo : Option String := none) :
    Except PyError (Option Equipo) × EquiposDB :=
  if nombre_equipo = "" ∨ estado_equipo = "" ∨ id_comandante = 0 then
    (.error (.valueError "Nombre, estado y comandante son campos obligatorios"), db)
  else if pyStrip nombre_equipo = "" then
    (.error (.valueError "Nombre, estado y comandante son campos obligatorios"), db)
  else
    match EstadoEquipo.fromName estado_equipo with
    | none => (.error (.typeError "Dato de entrada invalido"), db)
    | some estado_enum =>
      match get_usuarios_by_id db id_comandante with
      | some comandante_user =>
        match (nuevoEquipoObj nombre_equipo lema_equipo maximo_miembros color_equipo
            estado_enum id_comandante).agregar_miembro comandante_user with
        | .error e => (.error e, db)
        | .ok (_, equipo') =>
          match db.commitNewEquipo equipo' with
          | some (stored, db') => (.ok (some stored), db')
          | none => (.ok none, db)
      | none =>
        match db.commitNewEquipo (nuevoEquipoObj nombre_equipo lema_equipo
            maximo_miembros color_equipo estado_enum id_comandante) with
        | some (stored, db') => (.ok (some stored), db')
        | none => (.ok none, db)

/-- `add_member_to_equipo` from `app/services/equipos_services.py`.
`commitOk` stands for the success of `session.commit` (a `SQLAlchemyError`
there is caught, rolled back and turned into `False`).  The model's `False`
("already a member") is converted to `True` before any commit; the model's
capacity `ValueError` is re-raised with the service message; a `TypeError`
from the model propagates uncaught. -/
def add_member_to_equipo (db : EquiposDB) (commitOk : Bool)
    (id_equipo : Int) (id_usuario : Int) : Except PyError Bool × EquiposDB :=
  match get_equipos_by_id db id_equipo with
  | none => (.error (.valueError "Equipo no encontrado"), db)
  | some equipo =>
    match db.usuarios.find? (fun u => u.id_usuario == id_usuario) with
    | none => (.error (.valueError "Usuario no encontrado"), db)
    | some usuario =>
      match equipo.agregar_miembro usuario with
      | .ok (false, _) => (.ok true, db)
      | .ok (true, equipo') =>
        if commitOk then (.ok true, db.storeEquipo equipo')
        else (.ok false, db)
      | .error (.valueError _) =>
        (.error (.valueError "El equipo ha alcanzado su capacidad maxima de miembros"), db)
      | .error e => (.error e, db)

/-- `remove_member_from_equipo` from `app/services/equipos_services.py`.
Missing team raises; a user id that resolves to no `Usuario` row returns
`True` ("nothing to remove"); removing the commander raises `ValueError`
before the model is consulted; otherwise the model removal runs and `True`
is returned whether or not the user was a member (`commitOk = false` models
a `SQLAlchemyError` at commit, caught and turned into `False`). -/
def remove_member_from_equipo (db : EquiposDB) (commitOk : Bool)
    (id_equipo : Int) (id_usuario : Int) : Except PyError Bool × EquiposDB :=
  match get_equipos_by_id db id_equipo with
  | none => (.error (.valueError "Equipo no encontrado"), db)
  | some equipo =>
    match db.usuarios.find? (fun u => u.id_usuario == id_usuario) with
    | none => (.ok true, db)
    | some usuario =>
      if equipo.es_comandante id_usuario then
        (.error (.valueError "No se puede remover / eliminar al comandante del equipo"), db)
      else
        match equipo.remover_miembro usuario with
        | (true, equipo') =>
          if commitOk then (.ok true, db.storeEquipo equipo')
          else (.ok false, db)
        | (false, _) => (.ok true, db)

/-- `EstadoTorneo` from `app/enums/tipos.py`. -/
inductive EstadoTorneo where
  | draft
  | open
  | live
  | finished
  deriving DecidableEq, Repr

/-- `EstadoTorneo[name]`: Python `Enum` lookup by member name. -/
def EstadoTorneo.fromName : String → Option EstadoTorneo
  | "draft" => some .draft
  | "open" => some .open
  | "live" => some .live
  | "finished" => some .finished
  | _ => none

/-- A `Torneo` row (`app/models/torneos_models.py`).  `datetime` timestamps
are modelled as integers (`fecha_ini` stands for the nullable column
`fecha_inicio`). -/
structure Torneo where
  id_torneo : Int
  nombre_torneo : String
  recompensa_torneo : String
  nivel_acceso_min : Int
  estado_torneo : EstadoTorneo
  max_competidores : Int
  fecha_ini : Option Int := none
  fecha_fin : Option Int := none
  id_juego : Int
  deriving DecidableEq, Repr

/-- The slice of the database state used by the torneos service layer:
`juegos` holds the ids of the existing `Juego` rows (foreign-key target). -/
structure TorneosDB where
  juegos : List Int
  torneos : List Torneo
  next_id_torneo : Int := 1
  deriving DecidableEq, Repr

/-- The CHECK and foreign-key constraints of the `torneos` table:
`check_nombre_torneo_minlen`, `check_recompensa_torneo_minlen`,
`check_nivel_acceso_min_range`, `check_max_competidores_range` and
`check_fechas_coherente`
(`fecha_inicio IS NULL OR fecha_fin IS NULL OR fecha_inicio < fecha_fin`). -/
def torneoConstraintsOk (db : TorneosDB) (t : Torneo) : Bool :=
  (t.nombre_torneo.length ≥ 3) &&
  (t.recompensa_torneo.length ≥ 1) &&
  (0 ≤ t.nivel_acceso_min && t.nivel_acceso_min ≤ 100) &&
  (2 ≤ t.max_competidores && t.max_competidores ≤ 1000) &&
  (match t.fecha_ini, t.fecha_fin with
   | some a, some b => a < b
   | _, _ => true) &&
  (db.juegos.any (fun j => j == t.id_juego))

/-- `session.add` + `session.commit` for a new `Torneo`: assigns the fresh
autoincrement id and checks the table constraints; a violation surfaces as
`SQLAlchemyError` (modelled as `none`). -/
def TorneosDB.commitNewTorneo (db : TorneosDB) (t : Torneo) : Option (Torneo × TorneosDB) :=
  if torneoConstraintsOk db { t with id_torneo := db.next_id_torneo } then
    some ({ t with id_torneo := db.next_id_torneo },
      { db with torneos := db.torneos ++ [{ t with id_torneo := db.next_id_torneo }],
                next_id_torneo := db.next_id_torneo + 1 })
  else none

/-- `get_torneo_by_id` from `app/services/torneos_services.py`. -/
def get_torneo_by_id (db : TorneosDB) (id_torneo : Int) : Option Torneo :=
  db.torneos.find? (fun t => t.id_torneo == id_torneo)

/-- The `Torneo(...)` object constructed by `create_torneo`: id still
unassigned, both dates non-null. -/
def nuevoTorneoObj (nombre_torneo recompensa_torneo : String) (nivel_acceso_min : Int)
    (estado_enum : EstadoTorneo) (max_competidores fecha_ini fecha_fin id_juego : Int) :
    Torneo :=
  { id_torneo := 0
    nombre_torneo := nombre_torneo
    recompensa_torneo := recompensa_torneo
    nivel_acceso_min := nivel_acceso_min
    estado_torneo := estado_enum
    max_competidores := max_competidores
    fecha_ini := some fecha_ini
    fecha_fin := some fecha_fin
    id_juego := id_juego }

/-- `create_torneo` from `app/services/torneos_services.py`.  The falsy check
`all([...])` rejects empty strings and zero numbers; the two date arguments
stand for already-parsed `datetime.fromisoformat` values (the source requires
the date strings non-empty and well-formed before this point, raising
`ValueError` otherwise).  A `SQLAlchemyError` at commit is rolled back and
re-raised. -/
def create_torneo (db : TorneosDB) (nombre_torneo : String) (recompensa_torneo : String)
    (nivel_acceso_min : Int) (estado_torneo : String) (max_competidores : Int)
    (fecha_ini : Int) (fecha_fin : Int) (id_juego : Int) :
    Except PyError Torneo × TorneosDB :=
  if nombre_torneo = "" ∨ recompensa_torneo = "" ∨ nivel_acceso_min = 0 ∨
      estado_torneo = "" ∨ max_competidores = 0 ∨ id_juego = 0 then
    (.error (.valueError "Todos los campos son obligatorios"), db)
  else
    match EstadoTorneo.fromName estado_torneo with
    | none => (.error (.valueError "Dato de entrada invalido"), db)
    | some estado_enum =>
      match db.commitNewTorneo (nuevoTorneoObj nombre_torneo recompensa_torneo
          nivel_acceso_min estado_enum max_competidores fecha_ini fecha_fin id_juego) with
      | some (stored, db') => (.ok stored, db')
      | none => (.error (.dbError "Error creando torneo"), db)

/-- One entry of `MENU_ITEMS` (`app/config/dashboard_config.py`) as consumed
by the dashboard service (the `icon_main` field is never read by the logic
under specification).  `active` models the `"active"` key written by
`_mark_active_menu_and_get_page_info`. -/
structure MenuItem where
  name_main : String
  title_section : String
  url : String
  name_breadcrumbs : String
  min_level : Int
  active : Bool := false
  deriving DecidableEq, Repr

/-- One group produced by `_group_menu_by_section`:
`{"title": key, "section_items": [...]}`. -/
structure MenuSection where
  title : String
  section_items : List MenuItem
  deriving DecidableEq, Repr

/-- `_get_filtered_menu`: keep the items whose `min_level` is at most the
user's raw level (the `int` branch; the type guard raises `TypeError` and is
unrepresentable here). -/
def get_filtered_menu (menu_items : List MenuItem) (user_level : Int) : List MenuItem :=
  menu_items.filter (fun item => user_level ≥ item.min_level)

/-- `_group_menu_by_section`: `itertools.groupby(items, key=itemgetter("title_section"))`
splits the list into its maximal runs of equal `title_section`, one group per
run, in input order.  (The `KeyError` branch cannot fire: every item carries
`title_section`.) -/
def group_menu_by_section : List MenuItem → List MenuSection
  | [] => []
  | x :: xs =>
    match group_menu_by_section xs with
    | [] => [⟨x.title_section, [x]⟩]
    | g :: gs =>
      if g.title = x.title_section then ⟨g.title, x :: g.section_items⟩ :: gs
      else ⟨x.title_section, [x]⟩ :: g :: gs

/-- Inner loop of `_mark_active_menu_and_get_page_info` over one section's
items: the first item whose normalized `url` equals the current path is
marked `active = True` and its `(name_main, name_breadcrumbs)` is returned
(the scan stops there); items inspected before it are marked `active = False`. -/
def markItems (items : List MenuItem) (current_path : String) :
    Option (String × String) × List MenuItem :=
  match items with
  | [] => (none, [])
  | it :: rest =>
    if normalize_path it.url = current_path then
      (some (it.name_main, it.name_breadcrumbs), { it with active := true } :: rest)
    else
      let (r, rest') := markItems rest current_path
      (r, { it with active := false } :: rest')

/-- `DEFAULT_PAGE_TITLE` from `dashboard_service.py`. -/
def DEFAULT_PAGE_TITLE : String := "MAINFRAME_HUB"

/-- `DEFAULT_PAGE_DATA` from `dashboard_service.py`. -/
def DEFAULT_PAGE_DATA : String := "COMMAND_CENTER"

/-- `_mark_active_menu_and_get_page_info`: walks the grouped menu, returning
the page info of the first item whose normalized URL matches the (already
normalized) current path, or the defaults when nothing matches; the third
component is the menu after the in-place `active` updates. -/
def mark_active_menu_and_get_page_info :
    List MenuSection → String → String × String × List MenuSection
  | [], _ => (DEFAULT_PAGE_TITLE, DEFAULT_PAGE_DATA, [])
  | sec :: rest, current_path =>
    match markItems sec.section_items current_path with
    | (some (t, d), items') => (t, d, { sec with section_items := items' } :: rest)
    | (none, items') =>
      let (t, d, rest') := mark_active_menu_and_get_page_info rest current_path
      (t, d, { sec with section_items := items' } :: rest')

/-- Deactivate every item of a section (the image of a section under a
match-free scan). -/
def deactivateSection (sec : MenuSection) : MenuSection :=
  { sec with section_items :=
      sec.section_items.map (fun it => { it with active := false }) }

/-- The static `MENU_ITEMS` of `app/config/dashboard_config.py` (the fields
the dashboard logic reads). -/
def MENU_ITEMS : List MenuItem := [
  { name_main := "MAINFRAME_HUB", title_section := "OPERATIONS_COMMAND",
    url := "/", name_breadcrumbs := "NEXUS_OVERWATCH", min_level := 80 },
  { name_main := "SUBJECT_PROFILES", title_section := "OPERATIONS_COMMAND",
    url := "/usuarios", name_breadcrumbs := "FIRMAS_NEURALES", min_level := 5 },
  { name_main := "TACTICAL_SQUADS", title_section := "OPERATIONS_COMMAND",
    url := "/equipos", name_breadcrumbs := "ESCUADRONES", min_level := 5 },
  { name_main := "ARENA_OPS", title_section := "ARENA_INFRASTRUCTURE",
    url := "/torneos", name_breadcrumbs := "INSTANCIAS", min_level := 0 },
  { name_main := "VIRTUAL_SOFTWARE", title_section := "ARENA_INFRASTRUCTURE",
    url := "/juegos", name_breadcrumbs := "SOFTWARE_VIRTUAL", min_level := 0 },
  { name_main := "CLEARANCE_LVLS", title_section := "SYSTEM_KERNEL",
    url := "/jerarquias", name_breadcrumbs := "Niveles_Acceso", min_level := 80 },
  { name_main := "CORE_PROTOCOLS", title_section := "SYSTEM_KERNEL",
    url := "/protocolos", name_breadcrumbs := "REGLAS_BASE", min_level := 80 },
  { name_main := "NEURAL_ARCHETYPES", title_section := "SYSTEM_KERNEL",
    url := "/roles", name_breadcrumbs := "Roles_de_combate", min_level := 80 },
  { name_main := "REGISTER_ACTION", title_section := "DATA_TELEMETRY",
    url := "/registros", name_breadcrumbs := "BITACORAS", min_level := 20 },
  { name_main := "PERFORMANCE_DATA", title_section := "DATA_TELEMETRY",
    url := "/resultados", name_breadcrumbs := "ANALYTICS", min_level := 50 }]

/-- The slice of the `get_dashboard_data` context relevant to the page-info
and menu claims (`metric_cards`, `alerts_data` and `alert_finish` are static
configuration look-ups orthogonal to these claims). -/
structure DashboardData where
  menu_data : List MenuSection
  page_data : String
  page_title : String
  access_value : Int
  deriving DecidableEq, Repr

/-- `get_dashboard_data` (`app/services/dashboard_service.py`), parametrised
by the static menu configuration: empty path falls back to `"/"`; an
authenticated user gets the filtered, grouped menu and the discrete access
level, an anonymous one gets an empty menu and `PARTICIPANTE`; finally the
active item is marked and the page info extracted. -/
def get_dashboard_data (menu_items : List MenuItem) (user : AuthUser)
    (current_path : String) : DashboardData :=
  let current_path := if current_path = "" then "/" else current_path
  let norm_path := normalize_path current_path
  let grouped_menu_data :=
    if user.is_authenticated then
      group_menu_by_section (get_filtered_menu menu_items user.jerarquia.nivel_acceso)
    else []
  let access_value :=
    if user.is_authenticated then calculate_access_level user
    else Permissions.PARTICIPANTE
  let (page_title, page_data, menu') :=
    mark_active_menu_and_get_page_info grouped_menu_data norm_path
  { menu_data := menu', page_data := page_data, page_title := page_title,
    access_value := access_value }

/-- The `title_section` keys of a menu item list, in order. -/
def keysOf (l : List MenuItem) : List String :=
  l.map MenuItem.title_section

/-- The group titles produced for a menu item list, in order. -/
def titlesOf (l : List MenuItem) : List String :=
  (group_menu_by_section l).map MenuSection.title

/-- Some element different from `s` occurs strictly before some occurrence of
`s` in `ks`. -/
def NonSThenS (ks : List String) (s : String) : Prop :=
  ∃ (A B : List String) (c : String), ks = A ++ c :: B ∧ c ≠ s ∧ s ∈ B

/-- Section `s` is non-contiguous in `ks`: some occurrence of `s` is followed,
after an intervening different key, by another occurrence of `s`. -/
def NonContig (ks : List String) (s : String) : Prop :=
  ∃ (A B : List String), ks = A ++ s :: B ∧ NonSThenS B s

/-- All items of every section are adjacent in `l` (the precondition of the
grouping claim). -/
def SectionsAdjacent (l : List MenuItem) : Prop :=
  ∀ s, ¬ NonContig (keysOf l) s

/-- Keep the first occurrence of every key, in first-occurrence order. -/
def dedupFirst : List String → List String
  | [] => []
  | k :: ks => k :: (dedupFirst ks).filter (fun x => x ≠ k)

/-- The key-level image of `group_menu_by_section`: collapse each maximal run
of equal adjacent keys to one key (the group titles, see
`titlesOf_eq_collapseKeys`). -/
def collapseKeys : List String → List String
  | [] => []
  | k :: ks =>
    match collapseKeys ks with
    | [] => [k]
    | k' :: rest => if k' = k then k' :: rest else k :: k' :: rest

/-- A menu whose section "A" is non-contiguous (A, B, A). -/
def menuNCW : List MenuItem :=
  [{ name_main := "M1", title_section := "A", url := "/a",
     name_breadcrumbs := "b1", min_level := 0 },
   { name_main := "M2", title_section := "B", url := "/b",
     name_breadcrumbs := "b2", min_level := 0 },
   { name_main := "M3", title_section := "A", url := "/a2",
     name_breadcrumbs := "b3", min_level := 0 }]

/-! ## Concrete inputs used by the witness theorems -/

/-- A team of capacity 2 holding its two members. -/
def equipoAtCapacity : Equipo :=
  { id_equipo := 7, nombre_equipo := "abc", maximo_miembros := some 2,
    id_comandante := 1, miembros := [⟨1⟩, ⟨2⟩] }

/-- A team of capacity 4 holding two members. -/
def equipoBelowCapacity : Equipo :=
  { id_equipo := 8, nombre_equipo := "abc", maximo_miembros := some 4,
    id_comandante := 1, miembros := [⟨1⟩, ⟨2⟩] }

/-- A database holding users 1 and 2 and the below-capacity team commanded by
user 1, with both users as members. -/
def dbEquipos : EquiposDB :=
  { usuarios := [⟨1⟩, ⟨2⟩, ⟨3⟩], equipos := [equipoBelowCapacity],
    next_id_equipo := 9 }

/-- The team produced by the witness `create_equipo` call below. -/
def createdEquipoW : Equipo :=
  { id_equipo := 9, nombre_equipo := "Alpha", lema_equipo := none,
    maximo_miembros := some 5, color_equipo := some "#FF00FF",
    estado_equipo := .activo, id_comandante := 1, miembros := [⟨1⟩] }

/-- The database state after the witness `create_equipo` call below. -/
def createdDbW : EquiposDB :=
  { usuarios := [⟨1⟩, ⟨2⟩, ⟨3⟩], equipos := [equipoBelowCapacity, createdEquipoW],
    next_id_equipo := 10 }

/-- The tournament database before the witness `create_torneo` call. -/
def dbTorneosW : TorneosDB := { juegos := [3], torneos := [], next_id_torneo := 1 }

/-- The row stored by the witness `create_torneo` call. -/
def storedTorneoW : Torneo :=
  { id_torneo := 1, nombre_torneo := "VCT", recompensa_torneo := "USD",
    nivel_acceso_min := 60, estado_torneo := .open, max_competidores := 16,
    fecha_ini := some 10, fecha_fin := some 20, id_juego := 3 }

/-- The tournament database after the witness `create_torneo` call. -/
def dbTorneos2W : TorneosDB :=
  { juegos := [3], torneos := [storedTorneoW], next_id_torneo := 2 }

/-! ## Basic facts about the permission constants -/

@[simp] lemma Permissions_PARTICIPANTE : Permissions.PARTICIPANTE = 0 := rfl

@[simp] lemma Permissions_MOD_TACTICO : Permissions.MOD_TACTICO = 40 := rfl

@[simp] lemma Permissions_MOD_ARENA : Permissions.MOD_ARENA = 60 := rfl

@[simp] lemma Permissions_MOD_SISTEMA : Permissions.MOD_SISTEMA = 80 := rfl

@[simp] lemma Permissions_ADMIN : Permissions.ADMIN = 100 := rfl

/-! ## C1: `_calculate_access_level` returns the highest satisfied tier -/

/-- C1: for every user whose raw `jerarquia.nivel_acceso` is non-negative (the
`check_nivel_acceso_valid_range` constraint), `_calculate_access_level`
returns `PARTICIPANTE` when the user is not authenticated, and otherwise
returns the highest tier of {PARTICIPANTE, MOD_TACTICO, MOD_ARENA,
MOD_SISTEMA, ADMIN} whose numeric threshold is at most the raw level: the
result is a tier, it is at most the raw level, and every tier at most the raw
level is at most the result. -/
theorem calculate_access_level_highest_tier (u : AuthUser)
    (h : 0 ≤ u.jerarquia.nivel_acceso) :
    (u.is_authenticated = false →
      calculate_access_level u = Permissions.PARTICIPANTE) ∧
    (u.is_authenticated = true →
      calculate_access_level u ∈ accessTiers ∧
      calculate_access_level u ≤ u.jerarquia.nivel_acceso ∧
      ∀ t ∈ accessTiers, t ≤ u.jerarquia.nivel_acceso →
        t ≤ calculate_access_level u) := by
  obtain ⟨auth, ⟨lvl⟩⟩ := u
  simp only [Jerarquia.nivel_acceso] at h
  cases auth with
  | false => simp [calculate_access_level]
  | true =>
    refine ⟨by simp, fun _ => ?_⟩
    simp only [calculate_access_level, accessTiers, Bool.not_true,
      Bool.false_eq_true, if_false, Permissions_PARTICIPANTE,
      Permissions_MOD_TACTICO, Permissions_MOD_ARENA, Permissions_MOD_SISTEMA,
      Permissions_ADMIN]
    split_ifs with h1 h2 h3 h4 <;>
      refine ⟨by simp, by omega, ?_⟩ <;>
      intro t ht hle <;> simp only [List.mem_cons, List.not_mem_nil, or_false] at ht <;>
      rcases ht with rfl | rfl | rfl | rfl | rfl <;> omega

/-- Witness for C1 at the concrete authenticated user with raw level 55. -/
theorem calculate_access_level_highest_tier_witness :
    (0 : Int) ≤ (AuthUser.mk true ⟨55⟩).jerarquia.nivel_acceso ∧
    (((AuthUser.mk true ⟨55⟩).is_authenticated = false →
      calculate_access_level (AuthUser.mk true ⟨55⟩) = Permissions.PARTICIPANTE) ∧
     ((AuthUser.mk true ⟨55⟩).is_authenticated = true →
      calculate_access_level (AuthUser.mk true ⟨55⟩) ∈ accessTiers ∧
      calculate_access_level (AuthUser.mk true ⟨55⟩) ≤
        (AuthUser.mk true ⟨55⟩).jerarquia.nivel_acceso ∧
      ∀ t ∈ accessTiers, t ≤ (AuthUser.mk true ⟨55⟩).jerarquia.nivel_acceso →
        t ≤ calculate_access_level (AuthUser.mk true ⟨55⟩))) :=
  ⟨by decide, calculate_access_level_highest_tier (AuthUser.mk true ⟨55⟩) (by decide)⟩

/-! ## C2: `permission_required` gates by exact membership plus ADMIN -/

/-- C2: a request to a `permission_required(allowed_levels)`-wrapped handler
redirects unauthenticated users to login without running the handler; an
authenticated user's handler runs iff the raw `jerarquia.nivel_acceso` equals
`ADMIN` or is a member of `allowed_levels` (exact set membership), and
otherwise the user is redirected away (to index). -/
theorem permission_required_exact_membership (allowed_levels : List Int) (u : AuthUser) :
    (u.is_authenticated = false →
      permission_required allowed_levels u = .redirectLogin) ∧
    (u.is_authenticated = true →
      (permission_required allowed_levels u = .handlerRuns ↔
        (u.jerarquia.nivel_acceso = Permissions.ADMIN ∨
         u.jerarquia.nivel_acceso ∈ allowed_levels)) ∧
      (permission_required allowed_levels u ≠ .handlerRuns →
        permission_required allowed_levels u = .redirectIndex)) := by
  obtain ⟨auth, ⟨lvl⟩⟩ := u
  cases auth with
  | false => simp [permission_required]
  | true =>
    refine ⟨by simp, fun _ => ?_⟩
    simp only [permission_required, Bool.not_true, Bool.false_eq_true, if_false]
    by_cases hA : lvl = Permissions.ADMIN <;> by_cases hm : lvl ∈ allowed_levels <;>
      simp [hA, hm]

/-- Witness for C2: a MOD_ARENA-level user is turned away from a route that
allows only MOD_TACTICO, and an unauthenticated user is sent to login. -/
theorem permission_required_exact_membership_witness :
    permission_required [Permissions.MOD_TACTICO] (AuthUser.mk true ⟨60⟩) =
      .redirectIndex ∧
    permission_required [Permissions.MOD_TACTICO] (AuthUser.mk false ⟨60⟩) =
      .redirectLogin := by
  constructor
  · have h := (permission_required_exact_membership [Permissions.MOD_TACTICO]
      (AuthUser.mk true ⟨60⟩)).2 rfl
    exact h.2 (fun hrun => by have := h.1.mp hrun; revert this; decide)
  · exact (permission_required_exact_membership [Permissions.MOD_TACTICO]
      (AuthUser.mk false ⟨60⟩)).1 rfl

/-! ## C6: `_normalize_path` strips all trailing slashes, not just one -/

/-- C6 counterexample: the claim says `_normalize_path(P)` equals `P` with
the (single) trailing slash removed for every `P` ending in `"/"`; at
`P = "//"` that would be `"/"`, but the code's `rstrip("/")` removes both
slashes and yields `""`. -/
theorem normalize_path_counterexample :
    "//".toList.getLast? = some '/' ∧ normalize_path "//" = "" ∧ normalize_path "//" ≠ "/" :=
  ⟨by decide, by decide, by decide⟩

/-- The head of `dropWhile p l`, when present, falsifies `p`. -/
lemma head?_dropWhile_false {α : Type} (p : α → Bool) (l : List α) :
    ∀ x, (l.dropWhile p).head? = some x → p x = false := by
  induction l with
  | nil => intro x hx; simp [List.dropWhile_nil] at hx
  | cons a l ih =>
    intro x hx
    rw [List.dropWhile_cons] at hx
    by_cases hpa : p a = true
    · rw [if_pos hpa] at hx
      exact ih x hx
    · rw [if_neg hpa] at hx
      simp only [List.head?_cons, Option.some.injEq] at hx
      subst hx
      simpa using hpa

/-- C6 amended: for every path `P` whose last character is `'/'`:
if `len(P) ≤ 1` (that is, `P = "/"`) then `_normalize_path(P) = P`; otherwise
`_normalize_path(P)` is `P` with its entire maximal run of trailing slashes
removed — `P` decomposes as the result followed by `k ≥ 1` slashes and the
result does not end in `'/'` (so a single trailing slash is removed exactly
as the original claim says, but `"//"` becomes `""`, not `"/"`). -/
theorem normalize_path_strips_trailing_slashes (p : String)
    (h : p.toList.getLast? = some '/') :
    (¬ p.length > 1 → normalize_path p = p) ∧
    (p.length > 1 → ∃ k, 0 < k ∧
      p.toList = (normalize_path p).toList ++ List.replicate k '/' ∧
      (normalize_path p).toList.getLast? ≠ some '/') := by
  constructor
  · intro hlen
    simp [normalize_path, hlen]
  · intro hlen
    have hnorm : normalize_path p = rstripSlash p := by simp [normalize_path, hlen]
    rw [hnorm]
    set q : Char → Bool := fun c => c = '/' with hq
    set r := p.toList.reverse with hr
    have hrl : (rstripSlash p).toList = (r.dropWhile q).reverse := rfl
    refine ⟨(r.takeWhile q).length, ?_, ?_, ?_⟩
    · -- the reversed list starts with '/', so the takeWhile run is nonempty
      have hhead : r.head? = some '/' := by rw [hr, List.head?_reverse]; exact h
      cases hrc : r with
      | nil => rw [hrc] at hhead; simp at hhead
      | cons c r' =>
        rw [hrc] at hhead
        simp at hhead
        subst hhead
        rw [List.takeWhile_cons]
        simp [hq]
    · -- p = (dropped part reversed) ++ slashes
      have hsplit : r.takeWhile q ++ r.dropWhile q = r :=
        List.takeWhile_append_dropWhile q r
      have hrep : r.takeWhile q = List.replicate (r.takeWhile q).length '/' := by
        rw [List.eq_replicate_iff]
        exact ⟨rfl, fun b hb => by
          have := List.mem_takeWhile_imp hb
          simpa [hq] using this⟩
      have hrev : (r.takeWhile q).reverse = List.replicate (r.takeWhile q).length '/' := by
        conv_lhs => rw [hrep]
        rw [List.reverse_replicate]
      have hpl : p.toList = r.reverse := by rw [hr, List.reverse_reverse]
      rw [hrl]
      calc p.toList = r.reverse := hpl
        _ = (r.takeWhile q ++ r.dropWhile q).reverse := by rw [hsplit]
        _ = (r.dropWhile q).reverse ++ (r.takeWhile q).reverse :=
            List.reverse_append _ _
        _ = (r.dropWhile q).reverse ++ List.replicate (r.takeWhile q).length '/' := by
            rw [hrev]
    · -- the normalized path does not end in '/'
      rw [hrl, List.getLast?_reverse]
      intro hcon
      have := head?_dropWhile_false q r '/' hcon
      simp [hq] at this

/-- Witness for C6's amended claim at `P = "/abc//"`. -/
theorem normalize_path_strips_trailing_slashes_witness :
    ("/abc//".toList.getLast? = some '/') ∧
    ((¬ "/abc//".length > 1 → normalize_path "/abc//" = "/abc//") ∧
     ("/abc//".length > 1 → ∃ k, 0 < k ∧
       "/abc//".toList = (normalize_path "/abc//").toList ++ List.replicate k '/' ∧
       (normalize_path "/abc//").toList.getLast? ≠ some '/')) :=
  ⟨by decide, normalize_path_strips_trailing_slashes "/abc//" (by decide)⟩

/-! ## C3: `agregar_miembro` checks membership before capacity -/


/-- C3 counterexample: the claim says `agregar_miembro` raises whenever the
member count has reached `maximo_miembros`, but the already-a-member check
runs first: on a full team, re-adding an existing member returns `False`
instead of raising. -/
theorem agregar_miembro_counterexample :
    equipoAtCapacity.miembros_count = (2 : Int) ∧
    equipoAtCapacity.maximo_miembros = some 2 ∧
    equipoAtCapacity.agregar_miembro ⟨1⟩ = .ok (false, equipoAtCapacity) := by
  refine ⟨by decide, by decide, by rfl⟩

/-- C3 amended: `agregar_miembro` first checks membership — a user who is
already a member yields a no-op returning `False` even on a full team; a
non-member on a team whose count has reached `maximo_miembros` raises
`ValueError`; a non-member on a team below capacity is appended (the member
count increases by exactly 1) and `True` is returned. -/
theorem agregar_miembro_cases (e : Equipo) (u : Usuario) (m : Int)
    (hm : e.maximo_miembros = some m) :
    (e.es_miembro u.id_usuario = true →
      e.agregar_miembro u = .ok (false, e)) ∧
    (e.es_miembro u.id_usuario = false → e.miembros_count ≥ m →
      e.agregar_miembro u =
        .error (.valueError "Equipo ya alcanzo su maximo de miembros")) ∧
    (e.es_miembro u.id_usuario = false → e.miembros_count < m →
      e.agregar_miembro u = .ok (true, { e with miembros := e.miembros ++ [u] }) ∧
      ({ e with miembros := e.miembros ++ [u] } : Equipo).miembros_count =
        e.miembros_count + 1) := by
  refine ⟨fun hmem => ?_, fun hmem hcap => ?_, fun hmem hcap => ?_⟩
  · simp [Equipo.agregar_miembro, hmem]
  · simp [Equipo.agregar_miembro, hmem, hm, hcap]
  · refine ⟨by simp [Equipo.agregar_miembro, hmem, hm, not_le.mpr hcap], ?_⟩
    simp [Equipo.miembros_count]

/-- Witness for C3's amended claim: adding user 3 to a 2-member team of
capacity 4 appends it. -/
theorem agregar_miembro_cases_witness :
    (equipoBelowCapacity.maximo_miembros = some 4) ∧
    ((equipoBelowCapacity.es_miembro (3 : Int) = true →
       equipoBelowCapacity.agregar_miembro ⟨3⟩ = .ok (false, equipoBelowCapacity)) ∧
     (equipoBelowCapacity.es_miembro (3 : Int) = false →
       equipoBelowCapacity.miembros_count ≥ 4 →
       equipoBelowCapacity.agregar_miembro ⟨3⟩ =
         .error (.valueError "Equipo ya alcanzo su maximo de miembros")) ∧
     (equipoBelowCapacity.es_miembro (3 : Int) = false →
       equipoBelowCapacity.miembros_count < 4 →
       equipoBelowCapacity.agregar_miembro ⟨3⟩ =
         .ok (true, { equipoBelowCapacity with
                      miembros := equipoBelowCapacity.miembros ++ [⟨3⟩] }) ∧
       ({ equipoBelowCapacity with
          miembros := equipoBelowCapacity.miembros ++ [⟨3⟩] } : Equipo).miembros_count =
         equipoBelowCapacity.miembros_count + 1)) :=
  ⟨by decide, agregar_miembro_cases equipoBelowCapacity ⟨3⟩ 4 (by decide)⟩

/-! ## C4: the service layer never removes the commander -/

/-- C4: for every stored equipo whose commander id resolves to a `Usuario` row
(guaranteed in the real database by the `RESTRICT` foreign key),
`remove_member_from_equipo` called with the commander's id raises
`ValueError` and leaves the database — hence the membership list —
unchanged, for any commit outcome; yet the model-level `remover_miembro`
itself would permit removing that user whenever they are a member. -/
theorem remove_member_from_equipo_protects_comandante (db : EquiposDB)
    (commitOk : Bool) (id_equipo : Int) (equipo : Equipo)
    (he : get_equipos_by_id db id_equipo = some equipo)
    (hu : (db.usuarios.find?
      (fun u => u.id_usuario == equipo.id_comandante)).isSome = true) :
    remove_member_from_equipo db commitOk id_equipo equipo.id_comandante =
      (.error (.valueError "No se puede remover / eliminar al comandante del equipo"),
       db) ∧
    (∀ u : Usuario, u.id_usuario = equipo.id_comandante →
      equipo.es_miembro u.id_usuario = true →
      (equipo.remover_miembro u).1 = true) := by
  constructor
  · obtain ⟨u, hu'⟩ := Option.isSome_iff_exists.mp hu
    simp only [remove_member_from_equipo, he, hu']
    have hcmd : equipo.es_comandante equipo.id_comandante = true := by
      simp [Equipo.es_comandante]
    simp [hcmd]
  · intro u hid hmem
    simp [Equipo.remover_miembro, hmem]


/-- Witness for C4: removing commander 1 from team 8 raises and leaves the
database unchanged. -/
theorem remove_member_from_equipo_protects_comandante_witness :
    (get_equipos_by_id dbEquipos 8 = some equipoBelowCapacity ∧
     (dbEquipos.usuarios.find?
       (fun u => u.id_usuario == equipoBelowCapacity.id_comandante)).isSome = true) ∧
    (remove_member_from_equipo dbEquipos true 8 equipoBelowCapacity.id_comandante =
      (.error (.valueError "No se puede remover / eliminar al comandante del equipo"),
       dbEquipos) ∧
     (∀ u : Usuario, u.id_usuario = equipoBelowCapacity.id_comandante →
       equipoBelowCapacity.es_miembro u.id_usuario = true →
       (equipoBelowCapacity.remover_miembro u).1 = true)) :=
  ⟨⟨by decide, by decide⟩,
   remove_member_from_equipo_protects_comandante dbEquipos true 8 equipoBelowCapacity
     (by decide) (by decide)⟩

/-! ## C10: the service add-member converts the no-op into `True` -/

/-- C10: for an existing equipo below capacity and an existing usuario,
`add_member_to_equipo` returns `True` when the user is already a member
(without touching the database, whatever the commit outcome) and `True` when
the user is newly added and the commit succeeds; it returns `False` exactly
when a database error occurs at commit in the newly-added case. -/
theorem add_member_to_equipo_returns_true (db : EquiposDB) (commitOk : Bool)
    (id_equipo id_usuario : Int) (equipo : Equipo) (usuario : Usuario) (m : Int)
    (he : get_equipos_by_id db id_equipo = some equipo)
    (hu : db.usuarios.find? (fun u => u.id_usuario == id_usuario) = some usuario)
    (hm : equipo.maximo_miembros = some m)
    (hcap : equipo.miembros_count < m) :
    (equipo.es_miembro usuario.id_usuario = true →
      add_member_to_equipo db commitOk id_equipo id_usuario = (.ok true, db)) ∧
    (equipo.es_miembro usuario.id_usuario = false →
      add_member_to_equipo db commitOk id_equipo id_usuario =
        (if commitOk then
          (.ok true,
           db.storeEquipo { equipo with miembros := equipo.miembros ++ [usuario] })
         else (.ok false, db))) ∧
    (∀ b db', add_member_to_equipo db commitOk id_equipo id_usuario = (.ok b, db') →
      b = false → commitOk = false) := by
  have hadd := agregar_miembro_cases equipo usuario m hm
  refine ⟨fun hmem => ?_, fun hmem => ?_, ?_⟩
  · simp only [add_member_to_equipo, he, hu, hadd.1 hmem]
  · simp only [add_member_to_equipo, he, hu, (hadd.2.2 hmem hcap).1]
  · intro b db' hres hb
    subst hb
    by_cases hmem : equipo.es_miembro usuario.id_usuario = true
    · rw [add_member_to_equipo, he, hu] at hres
      simp only [hadd.1 hmem] at hres
      simp at hres
    · have hmem' : equipo.es_miembro usuario.id_usuario = false := by
        simpa using hmem
      rw [add_member_to_equipo, he, hu] at hres
      simp only [(hadd.2.2 hmem' hcap).1] at hres
      cases commitOk
      · rfl
      · simp at hres

/-- Witness for C10: in `dbEquipos`, user 2 is already a member of team 8 and
user 3 is added fresh. -/
theorem add_member_to_equipo_returns_true_witness :
    (get_equipos_by_id dbEquipos 8 = some equipoBelowCapacity ∧
     dbEquipos.usuarios.find? (fun u => u.id_usuario == (2 : Int)) = some ⟨2⟩ ∧
     equipoBelowCapacity.maximo_miembros = some 4 ∧
     equipoBelowCapacity.miembros_count < 4) ∧
    (equipoBelowCapacity.es_miembro ((⟨2⟩ : Usuario)).id_usuario = true →
      add_member_to_equipo dbEquipos true 8 2 = (.ok true, dbEquipos)) ∧
    (equipoBelowCapacity.es_miembro ((⟨2⟩ : Usuario)).id_usuario = false →
      add_member_to_equipo dbEquipos true 8 2 =
        (if true then
          (.ok true, dbEquipos.storeEquipo
            { equipoBelowCapacity with
              miembros := equipoBelowCapacity.miembros ++ [⟨2⟩] })
         else (.ok false, dbEquipos))) ∧
    (∀ b db', add_member_to_equipo dbEquipos true 8 2 = (.ok b, db') →
      b = false → true = false) :=
  ⟨⟨by decide, by decide, by decide, by decide⟩,
   (add_member_to_equipo_returns_true dbEquipos true 8 2 equipoBelowCapacity ⟨2⟩ 4
     (by decide) (by decide) (by decide) (by decide))⟩

/-! ## C5: `create_equipo` auto-enrols the commander -/

/-- `agregar_miembro` on a team with an empty member list can only succeed by
appending the given user as the sole member. -/
lemma agregar_miembro_on_empty (e : Equipo) (u : Usuario) (b : Bool) (e' : Equipo)
    (hmi : e.miembros = []) (h : e.agregar_miembro u = .ok (b, e')) :
    e'.miembros = [u] := by
  have hes : e.es_miembro u.id_usuario = false := by
    simp [Equipo.es_miembro, hmi]
  unfold Equipo.agregar_miembro at h
  rw [hes, if_neg Bool.false_ne_true] at h
  cases hmax : e.maximo_miembros with
  | none => rw [hmax] at h; exact absurd h (by simp)
  | some m =>
    rw [hmax] at h
    dsimp only at h
    by_cases hcap : e.miembros_count ≥ m
    · rw [if_pos hcap] at h
      exact absurd h (by simp)
    · rw [if_neg hcap] at h
      cases h
      simp [hmi]

/-- A successful commit preserves the member list of the new team. -/
lemma commitNewEquipo_miembros (db : EquiposDB) (e stored : Equipo) (db' : EquiposDB)
    (h : db.commitNewEquipo e = some (stored, db')) :
    stored.miembros = e.miembros := by
  unfold EquiposDB.commitNewEquipo at h
  split at h
  · simp only [Option.some.injEq, Prod.mk.injEq] at h
    rw [← h.1]
    rfl
  · simp at h

/-- A successful commit implies the commander foreign key was satisfiable. -/
lemma commitNewEquipo_comandante_fk (db : EquiposDB) (e stored : Equipo) (db' : EquiposDB)
    (h : db.commitNewEquipo e = some (stored, db')) :
    db.usuarios.any (fun u => u.id_usuario == e.id_comandante) = true := by
  unfold EquiposDB.commitNewEquipo at h
  split at h
  · rename_i hok
    simp only [equipoConstraintsOk, Bool.and_eq_true] at hok
    exact hok.1.1.1.1
  · simp at h

/-- C5: every equipo produced by a successful `create_equipo` call with
commander id `cid` has a member with id `cid` — the commander is auto-enrolled
(as the only member at creation time). -/
theorem create_equipo_commander_in_miembros
    (db : EquiposDB) (nombre estado : String) (cid : Int)
    (lema : Option String) (maximo : Option Int) (color : Option String)
    (eq : Equipo) (db' : EquiposDB)
    (h : create_equipo db nombre estado cid lema maximo color = (.ok (some eq), db')) :
    ∃ u ∈ eq.miembros, u.id_usuario = cid := by
  unfold create_equipo at h
  split at h
  · simp at h
  · split at h
    · simp at h
    · split at h
      · simp at h
      · rename_i estado_enum henum
        split at h
        · -- the commander id resolved to a user, who gets enrolled
          rename_i comandante_user hcu
          split at h
          · simp at h
          · rename_i b equipo' hagr
            split at h
            · rename_i stored db₂ hcommit
              simp only [Prod.mk.injEq, Except.ok.injEq, Option.some.injEq] at h
              obtain ⟨rfl, rfl⟩ := h
              have hm1 : equipo'.miembros = [comandante_user] :=
                agregar_miembro_on_empty _ _ b equipo' rfl hagr
              have hm2 : stored.miembros = equipo'.miembros :=
                commitNewEquipo_miembros db equipo' stored db₂ hcommit
              refine ⟨comandante_user, by rw [hm2, hm1]; simp, ?_⟩
              unfold get_usuarios_by_id at hcu
              have hb := List.find?_some hcu
              simpa using hb
            · simp at h
        · -- no such user: the commander foreign key fails at commit
          rename_i hcu
          split at h
          · rename_i stored db₂ hcommit
            have hfk := commitNewEquipo_comandante_fk db _ stored db₂ hcommit
            rw [List.any_eq_true] at hfk
            obtain ⟨u, hu, hbeq⟩ := hfk
            have := List.find?_eq_none.mp (by
              unfold get_usuarios_by_id at hcu
              exact hcu) u hu
            exact absurd hbeq this
          · simp at h


/-- Witness for C5: creating team "Alpha" commanded by user 1 enrols user 1. -/
theorem create_equipo_commander_in_miembros_witness :
    create_equipo dbEquipos "Alpha" "activo" 1 none (some 5) (some "#FF00FF") =
      (.ok (some createdEquipoW), createdDbW) ∧
    ∃ u ∈ createdEquipoW.miembros, u.id_usuario = (1 : Int) :=
  ⟨by rfl,
   create_equipo_commander_in_miembros dbEquipos "Alpha" "activo" 1 none (some 5)
     (some "#FF00FF") createdEquipoW createdDbW (by rfl)⟩

/-! ## C8: `create_torneo` round-trips coherent dates and rejects others -/

/-- C8: under the natural autoincrement invariant (every stored id is below
the next id), a successful `create_torneo` stores both timestamps unchanged
and reading the row back returns them; and whenever
`fecha_inicio >= fecha_fin` the call raises (the `check_fechas_coherente`
constraint fires at commit) and the database is left unchanged, so no row
with those dates is stored. -/
theorem create_torneo_fechas_coherentes (db : TorneosDB)
    (nombre recompensa : String) (nivel : Int) (estado : String)
    (maxc ini fin juego : Int)
    (hfresh : ∀ t ∈ db.torneos, t.id_torneo < db.next_id_torneo) :
    (∀ t db', create_torneo db nombre recompensa nivel estado maxc ini fin juego =
        (.ok t, db') →
      t.fecha_ini = some ini ∧ t.fecha_fin = some fin ∧ ini < fin ∧
      get_torneo_by_id db' t.id_torneo = some t) ∧
    (ini ≥ fin →
      (∃ e, (create_torneo db nombre recompensa nivel estado maxc ini fin juego).1 =
        .error e) ∧
      (create_torneo db nombre recompensa nivel estado maxc ini fin juego).2 = db) := by
  constructor
  · intro t db' h
    unfold create_torneo at h
    split at h
    · simp at h
    · split at h
      · simp at h
      · rename_i estado_enum henum
        split at h
        · rename_i stored db₂ hcommit
          cases h
          unfold TorneosDB.commitNewTorneo at hcommit
          split at hcommit
          · rename_i hok
            simp only [Option.some.injEq, Prod.mk.injEq] at hcommit
            obtain ⟨hst, hdb⟩ := hcommit
            have hlt : ini < fin := by
              simp only [torneoConstraintsOk, Bool.and_eq_true] at hok
              have := hok.1.2
              simpa [nuevoTorneoObj] using this
            subst hst hdb
            refine ⟨rfl, rfl, hlt, ?_⟩
            unfold get_torneo_by_id
            simp only
            rw [List.find?_append]
            have hnone : db.torneos.find?
                (fun x => x.id_torneo == db.next_id_torneo) = none := by
              rw [List.find?_eq_none]
              intro x hx
              have := hfresh x hx
              simp only [beq_iff_eq]
              omega
            rw [hnone]
            simp
          · simp at hcommit
        · simp at h
  · intro hge
    unfold create_torneo
    split
    · exact ⟨⟨_, rfl⟩, rfl⟩
    · split
      · exact ⟨⟨_, rfl⟩, rfl⟩
      · rename_i estado_enum henum
        cases hc : TorneosDB.commitNewTorneo db (nuevoTorneoObj nombre recompensa
            nivel estado_enum maxc ini fin juego) with
        | none => simp [hc]
        | some p =>
          exfalso
          obtain ⟨stored, db₂⟩ := p
          unfold TorneosDB.commitNewTorneo at hc
          split at hc
          · rename_i hok
            simp only [torneoConstraintsOk, Bool.and_eq_true] at hok
            have := hok.1.2
            have hlt : ini < fin := by simpa [nuevoTorneoObj] using this
            omega
          · simp at hc


/-- Witness for C8: dates 10 < 20 round-trip; dates 20 >= 10 are rejected with
the database unchanged. -/
theorem create_torneo_fechas_coherentes_witness :
    (create_torneo dbTorneosW "VCT" "USD" 60 "open" 16 10 20 3 =
       (.ok storedTorneoW, dbTorneos2W) ∧
     (storedTorneoW.fecha_ini = some 10 ∧ storedTorneoW.fecha_fin = some 20 ∧
      (10 : Int) < 20 ∧
      get_torneo_by_id dbTorneos2W storedTorneoW.id_torneo = some storedTorneoW)) ∧
    ((∃ e, (create_torneo dbTorneosW "VCT" "USD" 60 "open" 16 20 10 3).1 =
       .error e) ∧
     (create_torneo dbTorneosW "VCT" "USD" 60 "open" 16 20 10 3).2 = dbTorneosW) := by
  refine ⟨⟨by rfl, ?_⟩, ?_⟩
  · exact (create_torneo_fechas_coherentes dbTorneosW "VCT" "USD" 60 "open" 16 10 20 3
      (by decide)).1 storedTorneoW dbTorneos2W (by rfl)
  · exact (create_torneo_fechas_coherentes dbTorneosW "VCT" "USD" 60 "open" 16 20 10 3
      (by decide)).2 (by decide)

/-! ## C7: `_group_menu_by_section` groups maximal runs -/

lemma NonSThenS_nil (s : String) : ¬ NonSThenS [] s := by
  rintro ⟨A, B, c, happ, -, -⟩
  have := congrArg List.length happ
  simp at this
  omega

lemma NonContig_nil (s : String) : ¬ NonContig [] s := by
  rintro ⟨A, B, happ, -⟩
  have := congrArg List.length happ
  simp at this
  omega

lemma NonSThenS_cons (k : String) (ks : List String) (s : String) :
    NonSThenS (k :: ks) s ↔ (k ≠ s ∧ s ∈ ks) ∨ NonSThenS ks s := by
  constructor
  · rintro ⟨A, B, c, happ, hc, hm⟩
    cases A with
    | nil =>
      simp only [List.nil_append, List.cons.injEq] at happ
      obtain ⟨rfl, rfl⟩ := happ
      exact Or.inl ⟨hc, hm⟩
    | cons a A' =>
      simp only [List.cons_append, List.cons.injEq] at happ
      obtain ⟨rfl, rfl⟩ := happ
      exact Or.inr ⟨A', B, c, rfl, hc, hm⟩
  · rintro (⟨hk, hm⟩ | ⟨A, B, c, happ, hc, hm⟩)
    · exact ⟨[], ks, k, rfl, hk, hm⟩
    · exact ⟨k :: A, B, c, by rw [happ]; rfl, hc, hm⟩

lemma NonContig_cons (k : String) (ks : List String) (s : String) :
    NonContig (k :: ks) s ↔ (k = s ∧ NonSThenS ks s) ∨ NonContig ks s := by
  constructor
  · rintro ⟨A, B, happ, hB⟩
    cases A with
    | nil =>
      simp only [List.nil_append, List.cons.injEq] at happ
      obtain ⟨rfl, rfl⟩ := happ
      exact Or.inl ⟨rfl, hB⟩
    | cons a A' =>
      simp only [List.cons_append, List.cons.injEq] at happ
      obtain ⟨rfl, rfl⟩ := happ
      exact Or.inr ⟨A', B, rfl, hB⟩
  · rintro (⟨rfl, hB⟩ | ⟨A, B, happ, hB⟩)
    · exact ⟨[], ks, rfl, hB⟩
    · exact ⟨k :: A, B, by rw [happ]; rfl, hB⟩

lemma NonSThenS_mem {ks : List String} {s : String} (h : NonSThenS ks s) : s ∈ ks := by
  obtain ⟨A, B, c, happ, -, hm⟩ := h
  rw [happ]
  simp [hm]

lemma NonContig_mem {ks : List String} {s : String} (h : NonContig ks s) : s ∈ ks := by
  obtain ⟨A, B, happ, -⟩ := h
  rw [happ]
  simp

lemma collapseKeys_cons_shape (k : String) (ks : List String) :
    ∃ rest, collapseKeys (k :: ks) = k :: rest := by
  cases hc : collapseKeys ks with
  | nil => exact ⟨[], by rw [collapseKeys, hc]⟩
  | cons k' rest =>
    by_cases hk : k' = k
    · exact ⟨rest, by rw [collapseKeys, hc]; dsimp only; rw [if_pos hk, hk]⟩
    · exact ⟨k' :: rest, by rw [collapseKeys, hc]; dsimp only; rw [if_neg hk]⟩

lemma collapseKeys_cons_eq_self (k k2 : String) (ks' : List String) (hk : k2 = k) :
    collapseKeys (k :: k2 :: ks') = collapseKeys (k2 :: ks') := by
  obtain ⟨rest, hrest⟩ := collapseKeys_cons_shape k2 ks'
  rw [collapseKeys, hrest]
  dsimp only
  rw [if_pos hk, ← hrest]

lemma collapseKeys_cons_eq_new (k k2 : String) (ks' : List String) (hk : ¬ k2 = k) :
    collapseKeys (k :: k2 :: ks') = k :: collapseKeys (k2 :: ks') := by
  obtain ⟨rest, hrest⟩ := collapseKeys_cons_shape k2 ks'
  rw [collapseKeys, hrest]
  dsimp only
  rw [if_neg hk, ← hrest]

lemma mem_collapseKeys (s : String) (ks : List String) :
    s ∈ collapseKeys ks ↔ s ∈ ks := by
  induction ks with
  | nil => rfl
  | cons k tail ih =>
    cases tail with
    | nil => simp [collapseKeys]
    | cons k2 ks' =>
      by_cases hk : k2 = k
      · rw [collapseKeys_cons_eq_self k k2 ks' hk, ih]
        subst hk
        simp only [List.mem_cons]
        tauto
      · rw [collapseKeys_cons_eq_new k k2 ks' hk]
        simp only [List.mem_cons] at ih ⊢
        rw [ih]

lemma collapseKeys_cons (k : String) (ks : List String) :
    collapseKeys (k :: ks) =
      match collapseKeys ks with
      | [] => [k]
      | k' :: rest => if k' = k then k' :: rest else k :: k' :: rest := rfl

lemma group_cons_nil (x : MenuItem) (xs : List MenuItem)
    (h : group_menu_by_section xs = []) :
    group_menu_by_section (x :: xs) = [⟨x.title_section, [x]⟩] := by
  rw [group_menu_by_section, h]

lemma group_cons_merge (x : MenuItem) (xs : List MenuItem) (g : MenuSection)
    (gs : List MenuSection) (h : group_menu_by_section xs = g :: gs)
    (ht : g.title = x.title_section) :
    group_menu_by_section (x :: xs) = ⟨g.title, x :: g.section_items⟩ :: gs := by
  rw [group_menu_by_section, h]
  dsimp only
  rw [if_pos ht]

lemma group_cons_new (x : MenuItem) (xs : List MenuItem) (g : MenuSection)
    (gs : List MenuSection) (h : group_menu_by_section xs = g :: gs)
    (ht : ¬ g.title = x.title_section) :
    group_menu_by_section (x :: xs) = ⟨x.title_section, [x]⟩ :: g :: gs := by
  rw [group_menu_by_section, h]
  dsimp only
  rw [if_neg ht]

lemma group_head_title (y : MenuItem) (ys : List MenuItem) (g : MenuSection)
    (gs : List MenuSection) (h : group_menu_by_section (y :: ys) = g :: gs) :
    g.title = y.title_section := by
  cases hg : group_menu_by_section ys with
  | nil =>
    rw [group_cons_nil y ys hg] at h
    simp only [List.cons.injEq] at h
    rw [← h.1]
  | cons g' gs' =>
    by_cases ht : g'.title = y.title_section
    · rw [group_cons_merge y ys g' gs' hg ht] at h
      simp only [List.cons.injEq] at h
      rw [← h.1, ht]
    · rw [group_cons_new y ys g' gs' hg ht] at h
      simp only [List.cons.injEq] at h
      rw [← h.1]

/-- Concatenating the groups' `section_items` in order gives back the input
list (the grouping is a partition into contiguous runs). -/
lemma group_flatten (l : List MenuItem) :
    ((group_menu_by_section l).map MenuSection.section_items).flatten = l := by
  induction l with
  | nil => rfl
  | cons x xs ih =>
    cases hg : group_menu_by_section xs with
    | nil =>
      have hxs : xs = [] := by
        rw [hg] at ih
        simpa using ih.symm
      rw [group_cons_nil x xs hg, hxs]
      rfl
    | cons g gs =>
      rw [hg] at ih
      by_cases ht : g.title = x.title_section
      · rw [group_cons_merge x xs g gs hg ht]
        simp only [List.map_cons, List.flatten_cons] at ih ⊢
        rw [List.cons_append, ih]
      · rw [group_cons_new x xs g gs hg ht]
        simp only [List.map_cons, List.flatten_cons] at ih ⊢
        rw [List.singleton_append, ih]

/-- Every group is nonempty and all its items carry the group's title. -/
lemma group_sections_sound (l : List MenuItem) :
    ∀ g ∈ group_menu_by_section l, g.section_items ≠ [] ∧
      ∀ it ∈ g.section_items, it.title_section = g.title := by
  induction l with
  | nil => intro g hg; simp [group_menu_by_section] at hg
  | cons x xs ih =>
    intro g hg
    cases hgx : group_menu_by_section xs with
    | nil =>
      rw [group_cons_nil x xs hgx] at hg
      simp only [List.mem_singleton] at hg
      subst hg
      exact ⟨by simp, by simp⟩
    | cons g' gs' =>
      rw [hgx] at ih
      by_cases ht : g'.title = x.title_section
      · rw [group_cons_merge x xs g' gs' hgx ht] at hg
        rcases List.mem_cons.mp hg with rfl | htail
        · refine ⟨by simp, ?_⟩
          intro it hit
          rcases List.mem_cons.mp hit with rfl | hin
          · exact ht.symm
          · exact (ih g' (by simp)).2 it hin
        · exact ih g (by simp [htail])
      · rw [group_cons_new x xs g' gs' hgx ht] at hg
        rcases List.mem_cons.mp hg with rfl | htail
        · exact ⟨by simp, by simp⟩
        · exact ih g htail

/-- The group titles are exactly the collapsed key sequence. -/
lemma titlesOf_eq_collapseKeys (l : List MenuItem) :
    titlesOf l = collapseKeys (keysOf l) := by
  induction l with
  | nil => rfl
  | cons x xs ih =>
    cases hg : group_menu_by_section xs with
    | nil =>
      have hxs : collapseKeys (keysOf xs) = [] := by
        rw [titlesOf, hg] at ih
        simpa using ih.symm
      rw [titlesOf, group_cons_nil x xs hg, keysOf]
      simp only [List.map_cons]
      rw [collapseKeys_cons, ← keysOf, hxs]
      rfl
    | cons g gs =>
      cases xs with
      | nil => rw [group_menu_by_section] at hg; exact absurd hg (by simp)
      | cons y ys =>
        have hyt : g.title = y.title_section := group_head_title y ys g gs hg
        have hkeys : keysOf (x :: y :: ys) = x.title_section :: keysOf (y :: ys) := rfl
        have hkeys2 : keysOf (y :: ys) = y.title_section :: keysOf ys := rfl
        by_cases ht : g.title = x.title_section
        · rw [titlesOf, group_cons_merge x (y :: ys) g gs hg ht]
          have : (⟨g.title, x :: g.section_items⟩ :: gs : List MenuSection).map
              MenuSection.title = titlesOf (y :: ys) := by
            rw [titlesOf, hg]
            rfl
          rw [this, hkeys, ih]
          rw [hkeys2]
          rw [collapseKeys_cons_eq_self x.title_section y.title_section (keysOf ys)
            (by rw [← hyt, ht]), ← hkeys2]
        · rw [titlesOf, group_cons_new x (y :: ys) g gs hg ht]
          have : (⟨x.title_section, [x]⟩ :: g :: gs : List MenuSection).map
              MenuSection.title = x.title_section :: titlesOf (y :: ys) := by
            rw [titlesOf, hg]
            rfl
          rw [this, hkeys, ih]
          rw [hkeys2]
          rw [collapseKeys_cons_eq_new x.title_section y.title_section (keysOf ys)
            (by rw [← hyt]; exact fun hc => ht hc), ← hkeys2]

/-- A section key occurs at least twice among the collapsed keys exactly when
it is non-contiguous in the original key sequence. -/
lemma two_le_count_collapseKeys_iff (ks : List String) (s : String) :
    2 ≤ (collapseKeys ks).count s ↔ NonContig ks s := by
  induction ks with
  | nil =>
    simp only [collapseKeys, List.count_nil]
    exact ⟨fun h => absurd h (by omega), fun h => absurd h (NonContig_nil s)⟩
  | cons k tail ih =>
    cases tail with
    | nil =>
      constructor
      · intro h
        simp [collapseKeys, List.count_cons, List.count_nil] at h
        split at h <;> omega
      · intro h
        rcases (NonContig_cons k [] s).mp h with ⟨-, hB⟩ | hB
        · exact absurd hB (NonSThenS_nil s)
        · exact absurd hB (NonContig_nil s)
    | cons k2 ks' =>
      rw [NonContig_cons]
      by_cases hk : k2 = k
      · rw [collapseKeys_cons_eq_self k k2 ks' hk, ih]
        constructor
        · exact Or.inr
        · rintro (⟨rfl, hB⟩ | h)
          · rw [hk] at hB ⊢
            rcases (NonSThenS_cons k ks' k).mp hB with ⟨hss, -⟩ | hB'
            · exact absurd rfl hss
            · exact (NonContig_cons k ks' k).mpr (Or.inl ⟨rfl, hB'⟩)
          · exact h
      · rw [collapseKeys_cons_eq_new k k2 ks' hk, List.count_cons]
        by_cases hs : k = s
        · subst hs
          have hbeq : (k == k) = true := beq_self_eq_true k
          rw [hbeq, if_pos rfl]
          have hmem : k ∈ collapseKeys (k2 :: ks') ↔ k ∈ k2 :: ks' :=
            mem_collapseKeys k (k2 :: ks')
          constructor
          · intro h2
            have hmem' : k ∈ k2 :: ks' := by
              rw [← hmem]
              have hpos : 0 < (collapseKeys (k2 :: ks')).count k := by omega
              exact List.count_pos_iff.mp hpos
            rcases List.mem_cons.mp hmem' with heq | hin
            · exact absurd heq.symm hk
            · exact Or.inl ⟨rfl, (NonSThenS_cons k2 ks' k).mpr (Or.inl ⟨hk, hin⟩)⟩
          · rintro (⟨-, hB⟩ | h)
            · have hm2 : k ∈ k2 :: ks' := NonSThenS_mem hB
              have hpos : 0 < (collapseKeys (k2 :: ks')).count k :=
                List.count_pos_iff.mpr (hmem.mpr hm2)
              omega
            · have hm2 : k ∈ k2 :: ks' := NonContig_mem h
              have hpos : 0 < (collapseKeys (k2 :: ks')).count k :=
                List.count_pos_iff.mpr (hmem.mpr hm2)
              omega
        · have hbeq : (k == s) = false := by
            simpa using hs
          rw [hbeq]
          simp only [Bool.false_eq_true, if_false, Nat.add_zero, ih]
          constructor
          · exact Or.inr
          · rintro (⟨rfl, -⟩ | h)
            · exact absurd rfl hs
            · exact h

lemma mem_dedupFirst (s : String) (ks : List String) :
    s ∈ dedupFirst ks ↔ s ∈ ks := by
  induction ks with
  | nil => rfl
  | cons k tail ih =>
    simp only [dedupFirst, List.mem_cons, List.mem_filter, decide_eq_true_eq, ih]
    by_cases hs : s = k
    · simp [hs]
    · simp [hs]

lemma dedupFirst_nodup (ks : List String) : (dedupFirst ks).Nodup := by
  induction ks with
  | nil => exact List.nodup_nil
  | cons k tail ih =>
    rw [dedupFirst]
    refine List.Nodup.cons ?_ (List.Nodup.filter _ ih)
    intro hmem
    have := List.mem_filter.mp hmem
    simp at this

/-- When every key is contiguous, collapsing runs is the same as keeping first
occurrences. -/
lemma collapseKeys_eq_dedupFirst (ks : List String)
    (h : ∀ s, ¬ NonContig ks s) : collapseKeys ks = dedupFirst ks := by
  induction ks with
  | nil => rfl
  | cons k tail ih =>
    have htail : ∀ s, ¬ NonContig tail s := fun s hs =>
      h s ((NonContig_cons k tail s).mpr (Or.inr hs))
    cases tail with
    | nil => rfl
    | cons k2 ks' =>
      by_cases hk : k2 = k
      · rw [collapseKeys_cons_eq_self k k2 ks' hk, ih htail]
        subst hk
        rw [dedupFirst, dedupFirst, dedupFirst]
        simp [List.filter_cons, List.filter_filter]
      · rw [collapseKeys_cons_eq_new k k2 ks' hk, ih htail]
        conv_rhs => rw [dedupFirst]
        congr 1
        have hknotin : k ∉ (k2 :: ks') := by
          intro hmem
          rcases List.mem_cons.mp hmem with heq | hin
          · exact hk heq.symm
          · exact h k ((NonContig_cons k (k2 :: ks') k).mpr (Or.inl ⟨rfl,
              (NonSThenS_cons k2 ks' k).mpr (Or.inl ⟨hk, hin⟩)⟩))
        refine (List.filter_eq_self.mpr (fun a ha => ?_)).symm
        have hat : a ∈ k2 :: ks' := (mem_dedupFirst a (k2 :: ks')).mp ha
        have hne : a ≠ k := fun hak => hknotin (hak ▸ hat)
        simpa using hne

/-- Adjacency of all sections is exactly distinctness of the produced group
titles. -/
lemma sectionsAdjacent_iff_nodup (l : List MenuItem) :
    SectionsAdjacent l ↔ (titlesOf l).Nodup := by
  rw [List.nodup_iff_count_le_one]
  unfold SectionsAdjacent
  constructor
  · intro h a
    by_contra hc
    push_neg at hc
    refine h a ((two_le_count_collapseKeys_iff _ a).mp ?_)
    rw [← titlesOf_eq_collapseKeys]
    omega
  · intro h s hnc
    have h2 := (two_le_count_collapseKeys_iff (keysOf l) s).mpr hnc
    rw [← titlesOf_eq_collapseKeys] at h2
    have := h s
    omega

/-- C7: `_group_menu_by_section` partitions the filtered menu into contiguous
runs: concatenating the groups' `section_items` in order restores the input;
every group is nonempty and titled by its items' shared section; when all
items of each section are adjacent, there is exactly one group per distinct
section and the group titles list the sections in first-occurrence order
(`dedupFirst`); and a section that is non-contiguous in the input produces at
least two separate groups. -/
theorem group_menu_by_section_spec (l : List MenuItem) :
    ((group_menu_by_section l).map MenuSection.section_items).flatten = l ∧
    (∀ g ∈ group_menu_by_section l, g.section_items ≠ [] ∧
      ∀ it ∈ g.section_items, it.title_section = g.title) ∧
    (SectionsAdjacent l →
      titlesOf l = dedupFirst (keysOf l) ∧ (titlesOf l).Nodup) ∧
    (∀ s, NonContig (keysOf l) s → 2 ≤ (titlesOf l).count s) := by
  refine ⟨group_flatten l, group_sections_sound l, fun hadj => ?_, fun s hnc => ?_⟩
  · refine ⟨?_, (sectionsAdjacent_iff_nodup l).mp hadj⟩
    rw [titlesOf_eq_collapseKeys]
    exact collapseKeys_eq_dedupFirst (keysOf l) hadj
  · rw [titlesOf_eq_collapseKeys]
    exact (two_le_count_collapseKeys_iff (keysOf l) s).mpr hnc

/-- Witness for C7: the static `MENU_ITEMS` configuration is section-adjacent
and groups to distinct titles; the non-contiguous menu `menuNCW` (A, B, A)
yields two separate "A" groups. -/
theorem group_menu_by_section_spec_witness :
    (titlesOf MENU_ITEMS = dedupFirst (keysOf MENU_ITEMS) ∧
     (titlesOf MENU_ITEMS).Nodup) ∧
    2 ≤ (titlesOf menuNCW).count "A" := by
  constructor
  · exact (group_menu_by_section_spec MENU_ITEMS).2.2.1
      ((sectionsAdjacent_iff_nodup MENU_ITEMS).mpr (by decide))
  · exact (group_menu_by_section_spec menuNCW).2.2.2 "A"
      ⟨[], ["B", "A"], rfl, [], ["A"], "B", rfl, by decide, by decide⟩

/-! ## C9: no URL match leaves the defaults and no active item -/

/-- Items of the groups all come from the grouped list. -/
lemma mem_of_mem_group (l : List MenuItem) (sec : MenuSection)
    (hsec : sec ∈ group_menu_by_section l) (it : MenuItem)
    (hit : it ∈ sec.section_items) : it ∈ l := by
  rw [← group_flatten l]
  exact List.mem_flatten.mpr ⟨sec.section_items, List.mem_map_of_mem _ hsec, hit⟩

/-- When no item of the list matches the path, the scan returns no page info
and marks every item inactive. -/
lemma markItems_no_match (items : List MenuItem) (path : String)
    (h : ∀ it ∈ items, normalize_path it.url ≠ path) :
    markItems items path =
      (none, items.map (fun it => { it with active := false })) := by
  induction items with
  | nil => rfl
  | cons it rest ih =>
    rw [markItems, if_neg (h it (List.mem_cons_self it rest))]
    rw [ih (fun x hx => h x (List.mem_cons_of_mem it hx))]
    rfl

/-- When no item of any section matches the path, the walk returns the
defaults and deactivates every item. -/
lemma mark_no_match (sections : List MenuSection) (path : String)
    (h : ∀ sec ∈ sections, ∀ it ∈ sec.section_items,
      normalize_path it.url ≠ path) :
    mark_active_menu_and_get_page_info sections path =
      (DEFAULT_PAGE_TITLE, DEFAULT_PAGE_DATA,
       sections.map deactivateSection) := by
  induction sections with
  | nil => rfl
  | cons sec rest ih =>
    rw [mark_active_menu_and_get_page_info,
      markItems_no_match sec.section_items path (h sec (List.mem_cons_self sec rest))]
    rw [ih (fun s hs => h s (List.mem_cons_of_mem sec hs))]
    rfl

/-- In the deactivated image every item has `active = false`. -/
lemma deactivated_all_inactive (sections : List MenuSection) :
    ∀ sec ∈ sections.map deactivateSection,
      ∀ it ∈ sec.section_items, it.active = false := by
  intro sec hsec it hit
  obtain ⟨s, -, rfl⟩ := List.mem_map.mp hsec
  simp only [deactivateSection] at hit
  obtain ⟨i, -, rfl⟩ := List.mem_map.mp hit
  rfl

/-- C9: if no menu item's normalized URL equals the normalized current path,
`_mark_active_menu_and_get_page_info` returns the default page title
"MAINFRAME_HUB" and default breadcrumb "COMMAND_CENTER" and marks no item
active; consequently `get_dashboard_data` reports the same defaults with a
fully inactive menu. -/
theorem mark_active_no_match_defaults :
    (∀ (sections : List MenuSection) (path : String),
      (∀ sec ∈ sections, ∀ it ∈ sec.section_items,
        normalize_path it.url ≠ path) →
      (mark_active_menu_and_get_page_info sections path).1 = "MAINFRAME_HUB" ∧
      (mark_active_menu_and_get_page_info sections path).2.1 = "COMMAND_CENTER" ∧
      ∀ sec ∈ (mark_active_menu_and_get_page_info sections path).2.2,
        ∀ it ∈ sec.section_items, it.active = false) ∧
    (∀ (menu_items : List MenuItem) (user : AuthUser) (current_path : String),
      (∀ it ∈ menu_items, normalize_path it.url ≠
        normalize_path (if current_path = "" then "/" else current_path)) →
      (get_dashboard_data menu_items user current_path).page_title = "MAINFRAME_HUB" ∧
      (get_dashboard_data menu_items user current_path).page_data = "COMMAND_CENTER" ∧
      ∀ sec ∈ (get_dashboard_data menu_items user current_path).menu_data,
        ∀ it ∈ sec.section_items, it.active = false) := by
  constructor
  · intro sections path h
    rw [mark_no_match sections path h]
    exact ⟨rfl, rfl, deactivated_all_inactive sections⟩
  · intro menu_items user current_path h
    have hyp : ∀ sec ∈ (if user.is_authenticated then
          group_menu_by_section
            (get_filtered_menu menu_items user.jerarquia.nivel_acceso)
        else []),
        ∀ it ∈ sec.section_items, normalize_path it.url ≠
          normalize_path (if current_path = "" then "/" else current_path) := by
      intro sec hsec it hit
      by_cases hauth : user.is_authenticated
      · rw [if_pos hauth] at hsec
        have hmem := mem_of_mem_group _ sec hsec it hit
        exact h it (List.mem_of_mem_filter hmem)
      · rw [if_neg hauth] at hsec
        simp at hsec
    have hmark := mark_no_match _ _ hyp
    simp only [get_dashboard_data]
    rw [hmark]
    exact ⟨rfl, rfl, deactivated_all_inactive _⟩

/-- Witness for C9: for the 80-level user the full menu is grouped, and the
unmatched path "/nope" leaves the defaults with nothing active. -/
theorem mark_active_no_match_defaults_witness :
    ((mark_active_menu_and_get_page_info
        (group_menu_by_section (get_filtered_menu MENU_ITEMS 80)) "/nope").1 =
      "MAINFRAME_HUB" ∧
     (mark_active_menu_and_get_page_info
        (group_menu_by_section (get_filtered_menu MENU_ITEMS 80)) "/nope").2.1 =
      "COMMAND_CENTER" ∧
     ∀ sec ∈ (mark_active_menu_and_get_page_info
        (group_menu_by_section (get_filtered_menu MENU_ITEMS 80)) "/nope").2.2,
       ∀ it ∈ sec.section_items, it.active = false) ∧
    ((get_dashboard_data MENU_ITEMS ⟨true, ⟨80⟩⟩ "/nope").page_title =
      "MAINFRAME_HUB" ∧
     (get_dashboard_data MENU_ITEMS ⟨true, ⟨80⟩⟩ "/nope").page_data =
      "COMMAND_CENTER" ∧
     ∀ sec ∈ (get_dashboard_data MENU_ITEMS ⟨true, ⟨80⟩⟩ "/nope").menu_data,
       ∀ it ∈ sec.section_items, it.active = false) :=
  ⟨mark_active_no_match_defaults.1
     (group_menu_by_section (get_filtered_menu MENU_ITEMS 80)) "/nope"
     (by decide),
   mark_active_no_match_defaults.2 MENU_ITEMS ⟨true, ⟨80⟩⟩ "/nope" (by decide)⟩

end GameBass
